import Mathlib

/-!
Verification of the STRATUS Bug Advisor data layer.

The development shallowly embeds the SQLite schema and triggers of
`database/schema.sql` (tables `query_logs`, `feedback`, `usage_stats`,
`admin_users`, `response_cache`; triggers `update_usage_stats_after_query`
and `update_cache_hit_count`) together with the small frontend computations
(`formatResponse`, the admin-dashboard success-rate display and API-key
masking).  Backend route handlers of the Flask application are not part of
the sources; where a property depends on them they are modelled from the
design document, and each such definition is marked in its doc comment.

Machine integers of the database are modelled as `Nat`/`Int`; SQL `REAL`
arithmetic is modelled over `ℚ`; nullable columns are `Option` types;
timestamps/dates are abstract `Nat` instants (a `QueryLogEntry.date` stands
for `DATE(timestamp)`, truncated to day granularity).
-/

namespace Stratus

/-- A row of the `query_logs` table (schema lines 5–17).  `date` stands for
`DATE(timestamp)` (calendar-day truncation); `response_time_ms` is the
nullable `INTEGER` column; `success` is the `BOOLEAN` column. -/
structure QueryLogEntry where
  id : Nat
  date : Nat
  success : Bool
  response_time_ms : Option Int
deriving DecidableEq, Repr

/-- A row of the `usage_stats` table (schema lines 43–52); `date` is the
primary key.  `avg_response_time` and `success_rate` are nullable `REAL`
aggregates, modelled over `ℚ`. -/
structure DailyUsageStat where
  date : Nat
  total_queries : Nat
  successful_queries : Nat
  avg_response_time : Option ℚ
  success_rate : Option ℚ
deriving DecidableEq, Repr

/-- The rows of `query_logs` whose `DATE(timestamp)` equals `d`
(the trigger's `WHERE DATE(timestamp) = DATE(NEW.timestamp)`). -/
def rowsForDate (d : Nat) (logs : List QueryLogEntry) : List QueryLogEntry :=
  logs.filter (fun e => decide (e.date = d))

/-- The trigger's `COUNT(*)` column. -/
def totalQueriesFor (d : Nat) (logs : List QueryLogEntry) : Nat :=
  (rowsForDate d logs).length

/-- The trigger's `SUM(CASE WHEN success = 1 THEN 1 ELSE 0 END)` column. -/
def successfulQueriesFor (d : Nat) (logs : List QueryLogEntry) : Nat :=
  ((rowsForDate d logs).filter (fun e => e.success)).length

/-- The non-null response times among the rows of the date (SQL `AVG`
ignores `NULL` inputs). -/
def responseTimesFor (d : Nat) (logs : List QueryLogEntry) : List Int :=
  (rowsForDate d logs).filterMap (fun e => e.response_time_ms)

/-- The trigger's `AVG(response_time_ms)` column: the arithmetic mean of the
non-null response times, `NULL` when every row's response time is null. -/
def avgResponseTimeFor (d : Nat) (logs : List QueryLogEntry) : Option ℚ :=
  if (responseTimesFor d logs).isEmpty then none
  else some (((responseTimesFor d logs).sum : ℚ) / ((responseTimesFor d logs).length : ℚ))

/-- The trigger's success-rate column
`(CAST(SUM(...) AS REAL) / COUNT(*)) * 100`; `NULL` when the date has no
rows (SQL `NULL/0`), which the trigger never writes. -/
def successRateFor (d : Nat) (logs : List QueryLogEntry) : Option ℚ :=
  if totalQueriesFor d logs = 0 then none
  else some (((successfulQueriesFor d logs : ℚ) / (totalQueriesFor d logs : ℚ)) * 100)

/-- The row computed by the `SELECT` of trigger
`update_usage_stats_after_query` (schema lines 130–148) for date `d` over
the full `query_logs` table. -/
def aggregateRow (d : Nat) (logs : List QueryLogEntry) : DailyUsageStat :=
  { date := d
    total_queries := totalQueriesFor d logs
    successful_queries := successfulQueriesFor d logs
    avg_response_time := avgResponseTimeFor d logs
    success_rate := successRateFor d logs }

/-- `INSERT OR REPLACE INTO usage_stats` keyed by the `date` primary key:
any existing row of that date is deleted and the new row inserted. -/
def upsertStat (r : DailyUsageStat) (tbl : List DailyUsageStat) : List DailyUsageStat :=
  r :: tbl.filter (fun x => decide (x.date ≠ r.date))

/-- Lookup of the `usage_stats` row of a date. -/
def findStat (d : Nat) (tbl : List DailyUsageStat) : Option DailyUsageStat :=
  tbl.find? (fun r => decide (r.date = d))

/-- The `usage_stats` table holds at most one row per calendar date. -/
def distinctDates (tbl : List DailyUsageStat) : Prop :=
  tbl.Pairwise (fun a b => a.date ≠ b.date)

/-- Number of `usage_stats` rows carrying a given date. -/
def countDate (d : Nat) (tbl : List DailyUsageStat) : Nat :=
  (tbl.filter (fun x => decide (x.date = d))).length

/-- Combined state of the `query_logs` and `usage_stats` tables. -/
structure DBState where
  logs : List QueryLogEntry
  stats : List DailyUsageStat
deriving DecidableEq, Repr

/-- The empty database. -/
def emptyDB : DBState := ⟨[], []⟩

/-- An `INSERT` into `query_logs` followed by the `AFTER INSERT` trigger
`update_usage_stats_after_query`: the trigger recomputes the aggregate row
of the inserted entry's date from the full log and upserts it. -/
def insertQueryLog (e : QueryLogEntry) (st : DBState) : DBState :=
  { logs := e :: st.logs
    stats := upsertStat (aggregateRow e.date (e :: st.logs)) st.stats }

/-- A sequence of `query_logs` insertions, each firing the trigger. -/
def runInserts (es : List QueryLogEntry) (st : DBState) : DBState :=
  es.foldl (fun s e => insertQueryLog e s) st

/-- The `query_logs` insert together with its `AFTER INSERT` trigger
`update_usage_stats_after_query` (schema lines 130–148) as one SQL
statement: the trigger body runs within the statement that fired it, so a
failure of the aggregation write aborts the whole statement and the log
insert is backed out with it (SQLite ABORT handling; a transaction abort
under PostgreSQL).  `statWriteOk` is the outcome of the trigger's
`usage_stats` write; `none` is the aborted statement, leaving no new row
in either table. -/
def insertQueryLogAtomic (e : QueryLogEntry) (statWriteOk : Bool) (st : DBState) :
    Option DBState :=
  if statWriteOk then some (insertQueryLog e st) else none

/-- The admin-dashboard success-rate display
(`frontend/src/components/AdminDashboard.jsx` lines 370–375):
`totalQueries > 0 ? Math.round(successfulQueries / totalQueries * 100) : 0`.
JavaScript `Math.round x = ⌊x + 1/2⌋`, which is Mathlib's `round`. -/
def frontendSuccessRate (successful total : Nat) : ℤ :=
  if 0 < total then round (((successful : ℚ) / (total : ℚ)) * 100) else 0

/-- A row of the `response_cache` table (schema lines 68–77); `query_hash`
carries a `UNIQUE` constraint; `hit_count` defaults to 0.  `expires_at` is
set by every store (`store(..., ttl)` per design §4.2). -/
structure CacheRow where
  id : Nat
  query_hash : String
  product : String
  response_text : String
  created_at : Nat
  expires_at : Nat
  hit_count : Nat
deriving DecidableEq, Repr

/-- Operations the system performs on one `response_cache` row during its
lifetime (design §3: created on miss, read-and-increment on hit). -/
inductive CacheOp where
  | hit
  | read
deriving DecidableEq, Repr

/-- Modelled from the spec: the backend cache-hit accounting (not in the
sources).  A cache hit atomically increments `hit_count` by exactly 1; a
plain read leaves the row unchanged (design §4.2 Hit accounting). -/
def applyCacheOp : CacheOp → CacheRow → CacheRow
  | .hit, r => { r with hit_count := r.hit_count + 1 }
  | .read, r => r

/-- A sequence of operations applied to one cache row. -/
def runCacheOps (ops : List CacheOp) (r : CacheRow) : CacheRow :=
  ops.foldl (fun a o => applyCacheOp o a) r

/-- The trigger `update_cache_hit_count` (schema lines 151–158): fires
`AFTER UPDATE ON response_cache WHEN NEW.hit_count > OLD.hit_count` and
sets `hit_count = NEW.hit_count`, i.e. it re-asserts the already-updated
value and never alters the new row. -/
def update_cache_hit_count (old new : CacheRow) : CacheRow :=
  if old.hit_count < new.hit_count then { new with hit_count := new.hit_count } else new

/-- The `response_cache` table holds at most one row per `query_hash`
(the `UNIQUE` constraint of schema line 70). -/
def distinctHashes (tbl : List CacheRow) : Prop :=
  tbl.Pairwise (fun a b => a.query_hash ≠ b.query_hash)

/-- Number of `response_cache` rows carrying a given `query_hash`. -/
def countHash (k : String) (tbl : List CacheRow) : Nat :=
  (tbl.filter (fun x => decide (x.query_hash = k))).length

/-- Modelled from the spec: the backend cache `lookup` (not in the
sources).  A row is invalid once `now ≥ expires_at`: lookup of an expired
row is a miss and deletes nothing; a fresh hit returns the row and
increments its `hit_count` (design §4.2).  The result pairs the returned
row, if any, with the table after the lookup. -/
def cacheLookup (now : Nat) (key : String) (tbl : List CacheRow) :
    Option CacheRow × List CacheRow :=
  match tbl.find? (fun r => decide (r.query_hash = key)) with
  | some r =>
    if now < r.expires_at then
      (some { r with hit_count := r.hit_count + 1 },
       tbl.map (fun x =>
         if x.query_hash = key then { x with hit_count := x.hit_count + 1 } else x))
    else (none, tbl)
  | none => (none, tbl)

/-- Modelled from the spec: the backend cache `store` (not in the
sources), an `INSERT OR REPLACE` keyed by the `UNIQUE` `query_hash` of
schema line 70: any row of the same hash is deleted and the new row
inserted (design §4.2 Expiry policy). -/
def cacheStore (r : CacheRow) (tbl : List CacheRow) : List CacheRow :=
  r :: tbl.filter (fun x => decide (x.query_hash ≠ r.query_hash))

/-- Modelled from the spec: the response of `GET /api/admin/config`
(backend route not in the sources): "GET returns masked API key presence"
(design §6) — the response exposes only whether a key is set, never the
stored value. -/
structure ConfigGetResponse where
  claude_api_key_present : Bool
deriving DecidableEq, Repr

/-- Modelled from the spec: the `GET /api/admin/config` handler, reading
the `claude_api_key` row of `api_config` (schema lines 32–40, seeded empty
at line 111) and reporting only its presence. -/
def configGet (claude_api_key : String) : ConfigGetResponse :=
  ⟨claude_api_key != ""⟩

/-- The admin-dashboard key display
(`frontend/src/components/AdminDashboard.jsx` lines 47–57,
`loadConfiguration`): `setApiKey(data.claude_api_key ? '••••…' : '')`. -/
def displayedApiKey (present : Bool) : String :=
  if present then "••••••••••••••••" else ""

/-- A row of the `feedback` table (schema lines 20–29): `query_id` is a
nullable reference into `query_logs` declared
`FOREIGN KEY (query_id) REFERENCES query_logs(id) ON DELETE CASCADE`;
`helpful` is the nullable tri-state `BOOLEAN`. -/
structure FeedbackRow where
  id : Nat
  query_id : Option Nat
  query_hash : String
  helpful : Option Bool
deriving DecidableEq, Repr

/-- Deletion (purge) of the `query_logs` row with id `qid`: by the
`ON DELETE CASCADE` clause of schema line 28, every `feedback` row whose
`query_id` references the deleted row is deleted with it. -/
def purgeQueryLog (qid : Nat) (logs : List QueryLogEntry) (fb : List FeedbackRow) :
    List QueryLogEntry × List FeedbackRow :=
  (logs.filter (fun l => decide (l.id ≠ qid)),
   fb.filter (fun f => decide (f.query_id ≠ some qid)))

/-- Referential integrity of `feedback.query_id`: every non-null reference
names a present `query_logs` row. -/
def feedbackRefsIntact (fb : List FeedbackRow) (logs : List QueryLogEntry) : Prop :=
  ∀ f ∈ fb, f.query_id = none ∨ ∃ l ∈ logs, f.query_id = some l.id

/-- The mutable columns of an `admin_users` row (schema lines 55–65) that
the login gate reads and writes. -/
structure AdminUser where
  login_attempts : Nat
  locked_until : Option Nat
  last_login : Option Nat
deriving DecidableEq, Repr

/-- Outcome of a login attempt (design §4.3 / §7). -/
inductive LoginResult where
  | success
  | invalidCredentials
  | accountLocked
deriving DecidableEq, Repr

/-- Modelled from the spec: one password check of the login gate when the
account is not locked (backend not in the sources; design §4.3).  The
password-hash comparison is the external collaborator `hash in, boolean
out`, so it enters as the boolean `passwordOk`.  On success the attempt
counter resets and `last_login` is recorded; on failure the counter
increments, and reaching the threshold locks the account until
`now + lockDur`. -/
def processAttempt (threshold lockDur now : Nat) (passwordOk : Bool) (u : AdminUser) :
    LoginResult × AdminUser :=
  if passwordOk then
    (.success, { u with login_attempts := 0, last_login := some now })
  else
    let a := u.login_attempts + 1
    if threshold ≤ a then
      (.invalidCredentials, { u with login_attempts := a, locked_until := some (now + lockDur) })
    else
      (.invalidCredentials, { u with login_attempts := a })

/-- Modelled from the spec: `login(username, password)` of the admin auth
gate (backend not in the sources; design §4.3).  While `now < locked_until`
every attempt fails with `AccountLocked` regardless of the password; once
`locked_until` elapses the gate resets `login_attempts` to 0, clears the
lock and processes the attempt fresh. -/
def login (threshold lockDur now : Nat) (passwordOk : Bool) (u : AdminUser) :
    LoginResult × AdminUser :=
  match u.locked_until with
  | some t =>
    if now < t then (.accountLocked, u)
    else processAttempt threshold lockDur now passwordOk
      { u with login_attempts := 0, locked_until := none }
  | none => processAttempt threshold lockDur now passwordOk u

/-- A run of consecutive failed login attempts at the given instants. -/
def runFailedLogins (threshold lockDur : Nat) (ts : List Nat) (u : AdminUser) : AdminUser :=
  ts.foldl (fun a t => (login threshold lockDur t false a).2) u

/-- JavaScript strings are modelled as character sequences so that the
embedding is kernel-executable. -/
abbrev JSStr := List Char

/-- `String.prototype.trim` from the left: drop leading whitespace
(space, tab, CR, LF — the whitespace occurring in the analysed texts). -/
def trimLeft : JSStr → JSStr
  | [] => []
  | c :: cs => if c.isWhitespace then trimLeft cs else c :: cs

/-- `String.prototype.trim`: drop leading and trailing whitespace. -/
def trimStr (s : JSStr) : JSStr :=
  (trimLeft ((trimLeft s).reverse)).reverse

/-- `text.split('\n')`: split at every newline; the separator is consumed
and empty pieces are kept, the empty text yielding `[""]` as in JS. -/
def splitOnNL : JSStr → List JSStr
  | [] => [[]]
  | c :: cs =>
    if c = '\n' then [] :: splitOnNL cs
    else
      match splitOnNL cs with
      | [] => [[c]]
      | h :: t => (c :: h) :: t

/-- `text.split('##')`: split at every non-overlapping occurrence of the
two-character separator `'##'`, scanning left to right, empty pieces
kept. -/
def splitOnHH : JSStr → List JSStr
  | [] => [[]]
  | [c] => [[c]]
  | c1 :: c2 :: rest =>
    if c1 = '#' && c2 = '#' then [] :: splitOnHH rest
    else
      match splitOnHH (c2 :: rest) with
      | [] => [[c1]]
      | h :: t => (c1 :: h) :: t

/-- `lines.join('\n')`. -/
def joinNL (ls : List JSStr) : JSStr :=
  List.intercalate ['\n'] ls

/-- One rendered section of the analysis response. -/
structure ResponseSection where
  title : JSStr
  content : JSStr
deriving DecidableEq, Repr

/-- The section split of `formatResponse` (`App.jsx`, sources part_001
lines 138–172 and part_002 lines 150–190):
`text.split('##').filter(section => section.trim())` — a segment survives
iff its trim is nonempty (a nonempty string is JS-truthy). -/
def splitSections (text : JSStr) : List JSStr :=
  (splitOnHH text).filter (fun s => decide (trimStr s ≠ []))

/-- One section of `formatResponse`: the segment is trimmed, then split on
newlines; `title = lines[0].trim()`,
`content = lines.slice(1).join('\n').trim()`. -/
def formatSection (s : JSStr) : ResponseSection :=
  { title := trimStr ((splitOnNL (trimStr s)).headD [])
    content := trimStr (joinNL ((splitOnNL (trimStr s)).drop 1)) }

/-- The frontend `formatResponse` (sources part_001 lines 138–172 and
part_002 lines 150–190).  A JavaScript-falsy input (`null` or the empty
string) returns `''`, i.e. renders no sections, modelled as `[]`;
otherwise the non-blank `'##'` segments are each rendered as a section. -/
def formatResponse (text : Option JSStr) : List ResponseSection :=
  match text with
  | none => []
  | some t => if t = [] then [] else (splitSections t).map formatSection

/-- The per-section rendering exactly as the claim words it, for
comparison with `formatSection`: the title is the segment's first line
trimmed and the content the segment's remaining lines joined by newlines
and trimmed — without first trimming the segment. -/
def formatSectionClaim (s : JSStr) : ResponseSection :=
  { title := trimStr ((splitOnNL s).headD [])
    content := trimStr (joinNL ((splitOnNL s).drop 1)) }

/-- `formatResponse` as the claim words it, built on `formatSectionClaim`. -/
def formatResponseClaim (text : Option JSStr) : List ResponseSection :=
  match text with
  | none => []
  | some t => if t = [] then [] else (splitSections t).map formatSectionClaim

/-- First line of a text. -/
def firstLine (s : JSStr) : JSStr :=
  (splitOnNL s).headD []

/-- All lines after the first, re-joined by newlines. -/
def restLines (s : JSStr) : JSStr :=
  joinNL ((splitOnNL s).drop 1)

/-- The per-section rendering as the amended claim words it: the segment
is trimmed first; the title is the trimmed segment's first line (trimmed)
and the content the trimmed segment's remaining lines joined by newlines
and trimmed. -/
def sectionOfSegment (seg : JSStr) : ResponseSection :=
  ⟨trimStr (firstLine (trimStr seg)), trimStr (restLines (trimStr seg))⟩

instance (tbl : List DailyUsageStat) : Decidable (distinctDates tbl) := by
  unfold distinctDates; infer_instance

instance (tbl : List CacheRow) : Decidable (distinctHashes tbl) := by
  unfold distinctHashes; infer_instance

instance (fb : List FeedbackRow) (logs : List QueryLogEntry) :
    Decidable (feedbackRefsIntact fb logs) := by
  unfold feedbackRefsIntact; infer_instance

/-- Sample `query_logs` row: a successful query on day 0. -/
def qe1 : QueryLogEntry := ⟨1, 0, true, some 120⟩

/-- Sample `query_logs` row: a failed query on day 0 with null response time. -/
def qe2 : QueryLogEntry := ⟨2, 0, false, none⟩

/-- Sample `feedback` row referencing `query_logs` row 1. -/
def fbA : FeedbackRow := ⟨1, some 1, "qh1", some true⟩

/-- Sample `feedback` row referencing `query_logs` row 2. -/
def fbB : FeedbackRow := ⟨2, some 2, "qh2", none⟩

/-- Sample `usage_stats` row for day 0. -/
def statA : DailyUsageStat := ⟨0, 1, 1, none, some 100⟩

/-- Sample `usage_stats` row for day 1. -/
def statB : DailyUsageStat := ⟨1, 2, 1, none, some 50⟩

/-- Sample `response_cache` row, expiring at instant 10. -/
def cr1 : CacheRow := ⟨1, "h1", "allocator", "answer-a", 0, 10, 3⟩

/-- Sample replacement `response_cache` row with the same `query_hash`. -/
def cr2 : CacheRow := ⟨2, "h1", "allocator", "answer-b", 12, 22, 0⟩

/-! Theorems. -/

/-- The replaced `usage_stats` row is the one `findStat` retrieves for its
date. -/
theorem findStat_upsert (r : DailyUsageStat) (tbl : List DailyUsageStat) :
    findStat r.date (upsertStat r tbl) = some r := by
  simp [findStat, upsertStat]

/-- `runInserts` distributes over cons. -/
theorem runInserts_cons (e : QueryLogEntry) (es : List QueryLogEntry) (st : DBState) :
    runInserts (e :: es) st = runInserts es (insertQueryLog e st) := rfl

/-- The log table after a run of insertions. -/
theorem runInserts_logs (es : List QueryLogEntry) (st : DBState) :
    (runInserts es st).logs = es.reverse ++ st.logs := by
  induction es generalizing st with
  | nil => simp [runInserts]
  | cons e rest ih =>
    rw [runInserts_cons, ih]
    simp [insertQueryLog]

/-- After any nonempty single-date run of insertions, the stored
`usage_stats` row of that date is exactly the full-log recompute. -/
theorem stats_match_recompute (d : Nat) (es : List QueryLogEntry) (st : DBState)
    (hne : es ≠ []) (hd : ∀ e ∈ es, e.date = d) :
    findStat d (runInserts es st).stats = some (aggregateRow d (runInserts es st).logs) := by
  induction es generalizing st with
  | nil => exact absurd rfl hne
  | cons e rest ih =>
    rcases eq_or_ne rest [] with hrest | hrest
    · subst hrest
      have he : e.date = d := hd e (by simp)
      rw [runInserts_cons]
      show findStat d (insertQueryLog e st).stats
        = some (aggregateRow d (insertQueryLog e st).logs)
      subst he
      exact findStat_upsert (aggregateRow e.date (e :: st.logs)) st.stats
    · rw [runInserts_cons]
      exact ih (insertQueryLog e st) hrest
        (fun x hx => hd x (List.mem_cons_of_mem e hx))

/-- If every entry of a log has date `d`, that date's row filter keeps all
of it. -/
theorem rowsForDate_of_all (d : Nat) (l : List QueryLogEntry)
    (h : ∀ e ∈ l, e.date = d) : rowsForDate d l = l := by
  unfold rowsForDate
  exact List.filter_eq_self.mpr (fun a ha => by simp [h a ha])

/-- C1: for every sequence of `QueryLogEntry` insertions on a single
calendar date, after each insertion (hence after every nonempty prefix,
each prefix being itself such a sequence) the `usage_stats` row of that
date stores `total_queries` equal to the count of `query_logs` rows of the
date (= the number of inserted entries), `successful_queries` equal to the
count of those with `success` true, `avg_response_time` equal to the mean
of the non-null response times (null rows excluded from the mean, included
in the count), and the stored row equals the full-log re-aggregation
(idempotence). -/
theorem c1_daily_stats_correct (es : List QueryLogEntry) (d : Nat)
    (hne : es ≠ []) (hd : ∀ e ∈ es, e.date = d) :
    ∃ r, findStat d (runInserts es emptyDB).stats = some r ∧
      r.total_queries = totalQueriesFor d (runInserts es emptyDB).logs ∧
      r.total_queries = es.length ∧
      r.successful_queries = successfulQueriesFor d (runInserts es emptyDB).logs ∧
      r.avg_response_time = avgResponseTimeFor d (runInserts es emptyDB).logs ∧
      r = aggregateRow d (runInserts es emptyDB).logs := by
  refine ⟨aggregateRow d (runInserts es emptyDB).logs,
    stats_match_recompute d es emptyDB hne hd, rfl, ?_, rfl, rfl, rfl⟩
  show totalQueriesFor d (runInserts es emptyDB).logs = es.length
  have hlogs : (runInserts es emptyDB).logs = es.reverse := by
    simpa [emptyDB] using runInserts_logs es emptyDB
  rw [totalQueriesFor, hlogs,
    rowsForDate_of_all d es.reverse (fun e he => hd e (List.mem_reverse.mp he)),
    List.length_reverse]

/-- Witness for C1 at a concrete one-entry insertion run. -/
theorem c1_daily_stats_correct_witness :
    ([qe1] ≠ [] ∧ ∀ e ∈ [qe1], e.date = 0) ∧
    (∃ r, findStat 0 (runInserts [qe1] emptyDB).stats = some r ∧
      r.total_queries = totalQueriesFor 0 (runInserts [qe1] emptyDB).logs ∧
      r.total_queries = [qe1].length ∧
      r.successful_queries = successfulQueriesFor 0 (runInserts [qe1] emptyDB).logs ∧
      r.avg_response_time = avgResponseTimeFor 0 (runInserts [qe1] emptyDB).logs ∧
      r = aggregateRow 0 (runInserts [qe1] emptyDB).logs) :=
  ⟨⟨by decide, by decide⟩, c1_daily_stats_correct [qe1] 0 (by decide) (by decide)⟩

/-- C2: the success rate written by the trigger-driven recompute equals
`successful_queries / total_queries * 100` over exact (rational) division,
and its divisor is never zero: every written row has `total_queries ≥ 1`
because the aggregate counts at least the entry just inserted, so the
unguarded division's zero branch is unreachable; the admin dashboard's
display guards the zero case explicitly, showing `0` when
`total_queries = 0` and the rounded ratio otherwise. -/
theorem c2_success_rate_guarded :
    (∀ (st : DBState) (e : QueryLogEntry),
      ∃ r, findStat e.date (insertQueryLog e st).stats = some r ∧
        1 ≤ r.total_queries ∧
        r.success_rate
          = some (((r.successful_queries : ℚ) / (r.total_queries : ℚ)) * 100)) ∧
    (∀ s : Nat, frontendSuccessRate s 0 = 0) ∧
    (∀ s t : Nat, 0 < t →
      frontendSuccessRate s t = round (((s : ℚ) / (t : ℚ)) * 100)) := by
  refine ⟨?_, ?_, ?_⟩
  · intro st e
    have htot : 1 ≤ totalQueriesFor e.date (e :: st.logs) := by
      unfold totalQueriesFor rowsForDate
      simp [List.filter_cons]
    refine ⟨aggregateRow e.date (e :: st.logs), findStat_upsert _ _, htot, ?_⟩
    show successRateFor e.date (e :: st.logs)
      = some (((successfulQueriesFor e.date (e :: st.logs) : ℚ)
          / (totalQueriesFor e.date (e :: st.logs) : ℚ)) * 100)
    unfold successRateFor
    rw [if_neg (by omega)]
  · intro s
    rfl
  · intro s t ht
    unfold frontendSuccessRate
    rw [if_pos ht]

/-- Witness for C2's guarded branch at a concrete nonzero total. -/
theorem c2_success_rate_guarded_witness :
    (0 : Nat) < 2
      ∧ frontendSuccessRate 1 2 = round ((((1 : Nat) : ℚ) / ((2 : Nat) : ℚ)) * 100) :=
  ⟨by decide, c2_success_rate_guarded.2.2 1 2 (by decide)⟩

/-- An outer filter whose predicate contradicts the inner one leaves
nothing. -/
theorem filter_filter_disjoint {α : Type} (p q : α → Bool) (l : List α)
    (h : ∀ a, q a = true → p a = false) :
    (l.filter q).filter p = [] := by
  induction l with
  | nil => rfl
  | cons a l ih =>
    cases hq : q a with
    | true => simp [List.filter_cons, hq, h a hq, ih]
    | false => simp [List.filter_cons, hq, ih]

/-- An outer filter by a stronger predicate ignores the inner filter. -/
theorem filter_filter_of_imp {α : Type} (p q : α → Bool) (l : List α)
    (h : ∀ a, p a = true → q a = true) :
    (l.filter q).filter p = l.filter p := by
  induction l with
  | nil => rfl
  | cons a l ih =>
    cases hq : q a with
    | true => simp [List.filter_cons, hq, ih]
    | false =>
      have hp : p a = false := by
        cases hpa : p a with
        | true => exact absurd (h a hpa) (by simp [hq])
        | false => rfl
      simp [List.filter_cons, hq, hp, ih]

/-- C3: every usage-stat recompute upserts exactly one `usage_stats` row
for the affected date: the upsert preserves the at-most-one-row-per-date
invariant, leaves exactly one row of the written date, does not disturb the
row counts of other dates, and the trigger-driven aggregation step
preserves the invariant on the whole table. -/
theorem c3_one_row_per_date :
    (∀ (r : DailyUsageStat) (tbl : List DailyUsageStat),
      distinctDates tbl → distinctDates (upsertStat r tbl)) ∧
    (∀ (r : DailyUsageStat) (tbl : List DailyUsageStat),
      countDate r.date (upsertStat r tbl) = 1) ∧
    (∀ (r : DailyUsageStat) (tbl : List DailyUsageStat) (d : Nat),
      d ≠ r.date → countDate d (upsertStat r tbl) = countDate d tbl) ∧
    (∀ (e : QueryLogEntry) (st : DBState),
      distinctDates st.stats → distinctDates (insertQueryLog e st).stats) := by
  have hpres : ∀ (r : DailyUsageStat) (tbl : List DailyUsageStat),
      distinctDates tbl → distinctDates (upsertStat r tbl) := by
    intro r tbl h
    unfold distinctDates upsertStat
    refine List.Pairwise.cons ?_ ?_
    · intro x hx
      have hxr := List.of_mem_filter hx
      simp only [decide_eq_true_eq] at hxr
      exact fun hrx => hxr hrx.symm
    · exact List.Pairwise.sublist (List.filter_sublist _) h
  have hcount1 : ∀ (r : DailyUsageStat) (tbl : List DailyUsageStat),
      countDate r.date (upsertStat r tbl) = 1 := by
    intro r tbl
    have hempty : ((tbl.filter (fun x => decide (x.date ≠ r.date))).filter
        (fun x => decide (x.date = r.date))) = [] := by
      refine filter_filter_disjoint _ _ tbl ?_
      intro a ha
      simp only [decide_eq_true_eq] at ha
      simpa using ha
    simp [countDate, upsertStat, List.filter_cons, hempty]
  have hcount2 : ∀ (r : DailyUsageStat) (tbl : List DailyUsageStat) (d : Nat),
      d ≠ r.date → countDate d (upsertStat r tbl) = countDate d tbl := by
    intro r tbl d hd
    have hsub : ((tbl.filter (fun x => decide (x.date ≠ r.date))).filter
        (fun x => decide (x.date = d)))
        = tbl.filter (fun x => decide (x.date = d)) := by
      refine filter_filter_of_imp _ _ tbl ?_
      intro a ha
      simp only [decide_eq_true_eq] at ha ⊢
      rw [ha]
      exact hd
    have hr : (decide (r.date = d)) = false := by
      simp only [decide_eq_false_iff_not]
      exact fun h => hd h.symm
    simp only [countDate, upsertStat, List.filter_cons, hr, Bool.false_eq_true,
      if_false]
    rw [hsub]
  exact ⟨hpres, hcount1, hcount2, fun e st h => hpres _ _ h⟩

/-- Witness for C3 at a concrete two-date table. -/
theorem c3_one_row_per_date_witness :
    (distinctDates [statB] ∧ distinctDates (upsertStat statA [statB])) ∧
    countDate statA.date (upsertStat statA [statB]) = 1 ∧
    ((5 : Nat) ≠ statA.date
      ∧ countDate 5 (upsertStat statA [statB]) = countDate 5 [statB]) ∧
    (distinctDates (⟨[], [statB]⟩ : DBState).stats
      ∧ distinctDates (insertQueryLog qe1 ⟨[], [statB]⟩).stats) :=
  ⟨⟨by decide, c3_one_row_per_date.1 statA [statB] (by decide)⟩,
   c3_one_row_per_date.2.1 statA [statB],
   ⟨by decide, c3_one_row_per_date.2.2.1 statA [statB] 5 (by decide)⟩,
   ⟨by decide, c3_one_row_per_date.2.2.2 qe1 ⟨[], [statB]⟩ (by decide)⟩⟩

/-- C4 (code bug): the claim requires a failed stat write to leave the
freshly inserted `query_logs` row committed, but the repository performs
the stat recompute as an `AFTER INSERT` trigger inside the very statement
that inserts the log row, so a failed aggregation write aborts the whole
statement: no state in which the log row is present survives — in
particular at the concrete failing input `qe1` on the empty database the
insert yields no committed row at all, where the claim demands a state
whose log contains `qe1`.  A successful stat write is the ordinary
trigger-driven insertion. -/
theorem c4_trigger_failure_aborts_insert :
    (∀ (e : QueryLogEntry) (st : DBState),
      insertQueryLogAtomic e false st = none ∧
      insertQueryLogAtomic e true st = some (insertQueryLog e st)) ∧
    insertQueryLogAtomic qe1 false emptyDB = none ∧
    ¬ ∃ st, insertQueryLogAtomic qe1 false emptyDB = some st ∧ qe1 ∈ st.logs := by
  refine ⟨fun e st => ⟨rfl, rfl⟩, rfl, ?_⟩
  rintro ⟨st, hst, -⟩
  exact Option.noConfusion hst

/-- A single cache-row operation never lowers the hit counter. -/
theorem hitCount_le_applyCacheOp (o : CacheOp) (r : CacheRow) :
    r.hit_count ≤ (applyCacheOp o r).hit_count := by
  cases o with
  | hit => exact Nat.le_succ _
  | read => exact Nat.le_refl _

/-- C5: `hit_count` is monotonically non-decreasing along every sequence
of operations on a `response_cache` row, a cache hit increments it by
exactly 1, and the `update_cache_hit_count` trigger re-asserts the updated
row unchanged (in particular it never decreases the counter). -/
theorem c5_hit_count_monotone :
    (∀ (ops : List CacheOp) (r : CacheRow),
      r.hit_count ≤ (runCacheOps ops r).hit_count) ∧
    (∀ r : CacheRow, (applyCacheOp .hit r).hit_count = r.hit_count + 1) ∧
    (∀ old new : CacheRow, update_cache_hit_count old new = new) := by
  refine ⟨?_, fun r => rfl, ?_⟩
  · intro ops
    induction ops with
    | nil => intro r; exact Nat.le_refl _
    | cons o rest ih =>
      intro r
      exact Nat.le_trans (hitCount_le_applyCacheOp o r) (ih (applyCacheOp o r))
  · intro old new
    unfold update_cache_hit_count
    split <;> rfl

/-- Below the lockout threshold, a run of failed logins on an unlocked
account only accumulates the attempt counter. -/
theorem runFailedLogins_below (threshold lockDur : Nat) :
    ∀ (ts : List Nat) (u : AdminUser), u.locked_until = none →
      u.login_attempts + ts.length < threshold →
      runFailedLogins threshold lockDur ts u
        = ⟨u.login_attempts + ts.length, none, u.last_login⟩ := by
  intro ts
  induction ts with
  | nil =>
    intro u hu _
    obtain ⟨a, lk, ll⟩ := u
    cases hu
    rfl
  | cons t ts ih =>
    intro u hu hlt
    obtain ⟨a, lk, ll⟩ := u
    cases hu
    simp only [List.length_cons] at hlt
    have hnl : ¬ threshold ≤ a + 1 := by omega
    have hstep : (login threshold lockDur t false ⟨a, none, ll⟩).2
        = ⟨a + 1, none, ll⟩ := by
      simp [login, processAttempt, hnl]
    have hih := ih ⟨a + 1, none, ll⟩ rfl
      (by show a + 1 + ts.length < threshold; omega)
    show runFailedLogins threshold lockDur ts
      (login threshold lockDur t false ⟨a, none, ll⟩).2
        = ⟨a + (ts.length + 1), none, ll⟩
    rw [hstep, hih]
    show (⟨a + 1 + ts.length, none, ll⟩ : AdminUser) = ⟨a + (ts.length + 1), none, ll⟩
    rw [show a + 1 + ts.length = a + (ts.length + 1) by omega]

/-- C6: starting from a fresh account, exactly N consecutive failed logins
(N the configured threshold, the last at instant `t`) leave the account
Locked with `locked_until = t + lockDur`; while `now < locked_until` every
attempt — with correct password or not — fails with `AccountLocked` and
changes nothing; once `locked_until` has elapsed the gate resets
`login_attempts` to 0 and processes a fresh attempt, so a correct password
now succeeds and a wrong one counts as failure number 1. -/
theorem c6_lockout_gate :
    (∀ (threshold lockDur : Nat) (ts : List Nat) (t : Nat),
      ts.length + 1 = threshold →
      runFailedLogins threshold lockDur (ts ++ [t]) ⟨0, none, none⟩
        = ⟨threshold, some (t + lockDur), none⟩) ∧
    (∀ (threshold lockDur now t : Nat) (passwordOk : Bool) (u : AdminUser),
      u.locked_until = some t → now < t →
      login threshold lockDur now passwordOk u = (.accountLocked, u)) ∧
    (∀ (threshold lockDur now t : Nat) (u : AdminUser),
      u.locked_until = some t → t ≤ now →
      login threshold lockDur now true u = (.success, ⟨0, none, some now⟩) ∧
      (login threshold lockDur now false u).1 = .invalidCredentials ∧
      (login threshold lockDur now false u).2.login_attempts = 1) := by
  refine ⟨?_, ?_, ?_⟩
  · intro threshold lockDur ts t hlen
    have hsplit : runFailedLogins threshold lockDur (ts ++ [t]) ⟨0, none, none⟩
        = (login threshold lockDur t false
            (runFailedLogins threshold lockDur ts ⟨0, none, none⟩)).2 := by
      unfold runFailedLogins
      rw [List.foldl_append]
      rfl
    rw [hsplit,
      runFailedLogins_below threshold lockDur ts ⟨0, none, none⟩ rfl
        (by show 0 + ts.length < threshold; omega)]
    simp [login, processAttempt, hlen]
  · intro threshold lockDur now t pwOk u hu hlt
    obtain ⟨a, lk, ll⟩ := u
    cases hu
    simp [login, hlt]
  · intro threshold lockDur now t u hu hle
    obtain ⟨a, lk, ll⟩ := u
    cases hu
    have hnlt : ¬ now < t := by omega
    have hred : login threshold lockDur now false ⟨a, some t, ll⟩
        = processAttempt threshold lockDur now false ⟨0, none, ll⟩ := by
      simp [login, hnlt]
    refine ⟨by simp [login, processAttempt, hnlt], ?_, ?_⟩
    · rw [hred]
      by_cases hth : threshold ≤ 0 + 1
      · simp [processAttempt, hth]
      · simp [processAttempt, hth]
    · rw [hred]
      by_cases hth : threshold ≤ 0 + 1
      · simp [processAttempt, hth]
      · simp [processAttempt, hth]

/-- Witness for C6: threshold 3, lockout 10; three failures at instants
0, 1, 2 lock until 12; a locked account rejects the correct password at
instant 5; at instant 10 the lock has elapsed and login succeeds. -/
theorem c6_lockout_gate_witness :
    (([0, 1] : List Nat).length + 1 = 3
      ∧ runFailedLogins 3 10 ([0, 1] ++ [2]) ⟨0, none, none⟩
          = ⟨3, some (2 + 10), none⟩) ∧
    ((5 : Nat) < 10
      ∧ login 3 10 5 true ⟨2, some 10, none⟩ = (.accountLocked, ⟨2, some 10, none⟩)) ∧
    ((10 : Nat) ≤ 10
      ∧ login 3 10 10 true ⟨5, some 10, some 1⟩ = (.success, ⟨0, none, some 10⟩)) :=
  ⟨⟨by decide, c6_lockout_gate.1 3 10 [0, 1] 2 (by decide)⟩,
   ⟨by decide, c6_lockout_gate.2.1 3 10 5 10 true ⟨2, some 10, none⟩ rfl (by decide)⟩,
   ⟨by decide, (c6_lockout_gate.2.2 3 10 10 10 ⟨5, some 10, some 1⟩ rfl (by decide)).1⟩⟩

/-- Under the `UNIQUE` hash invariant, `find?` by hash retrieves exactly
the member row carrying that hash. -/
theorem find?_mem_distinctHashes :
    ∀ (tbl : List CacheRow) (r : CacheRow), distinctHashes tbl → r ∈ tbl →
      tbl.find? (fun x => decide (x.query_hash = r.query_hash)) = some r := by
  intro tbl
  induction tbl with
  | nil =>
    intro r _ hr
    exact absurd hr (List.not_mem_nil r)
  | cons a l ih =>
    intro r hdist hr
    unfold distinctHashes at hdist
    rcases List.mem_cons.mp hr with h | h
    · subst h
      exact List.find?_cons_of_pos _ (by simp)
    · have hne : a.query_hash ≠ r.query_hash := (List.pairwise_cons.mp hdist).1 r h
      rw [List.find?_cons_of_neg _ (by simp [hne])]
      exact ih r (List.pairwise_cons.mp hdist).2 h

/-- C7: a lookup of an expired row's key misses while the row stays
physically present in the table, and the next store of a row with the
same key removes the stale row, leaving that key stored exactly once. -/
theorem c7_expired_lookup_is_miss :
    ∀ (tbl : List CacheRow) (r r2 : CacheRow) (now : Nat),
      distinctHashes tbl → r ∈ tbl → r.expires_at ≤ now →
      r2.query_hash = r.query_hash → r2 ≠ r →
      (cacheLookup now r.query_hash tbl).1 = none ∧
      r ∈ (cacheLookup now r.query_hash tbl).2 ∧
      r2 ∈ cacheStore r2 tbl ∧
      r ∉ cacheStore r2 tbl ∧
      countHash r.query_hash (cacheStore r2 tbl) = 1 := by
  intro tbl r r2 now hdist hmem hexp hhash hne
  have hfind := find?_mem_distinctHashes tbl r hdist hmem
  have hnow : ¬ now < r.expires_at := by omega
  have hlook : cacheLookup now r.query_hash tbl = (none, tbl) := by
    unfold cacheLookup
    rw [hfind]
    simp [hnow]
  refine ⟨by rw [hlook], by rw [hlook]; exact hmem, List.mem_cons_self _ _, ?_, ?_⟩
  · intro hmem2
    rcases List.mem_cons.mp hmem2 with h | h
    · exact hne h.symm
    · have hq := List.of_mem_filter h
      simp only [decide_eq_true_eq] at hq
      exact hq hhash.symm
  · have hempty : ((tbl.filter (fun x => decide (x.query_hash ≠ r2.query_hash))).filter
        (fun x => decide (x.query_hash = r.query_hash))) = [] := by
      refine filter_filter_disjoint _ _ tbl ?_
      intro a ha
      simp only [decide_eq_true_eq] at ha
      simp only [decide_eq_false_iff_not]
      rw [← hhash]
      exact ha
    have hhead : decide (r2.query_hash = r.query_hash) = true := by simp [hhash]
    simp only [countHash, cacheStore, List.filter_cons, hhead, if_true, hempty,
      List.length_cons, List.length_nil]

/-- Witness for C7 at a one-row table whose row expires at instant 10. -/
theorem c7_expired_lookup_is_miss_witness :
    (distinctHashes [cr1] ∧ cr1 ∈ [cr1] ∧ cr1.expires_at ≤ 10
      ∧ cr2.query_hash = cr1.query_hash ∧ cr2 ≠ cr1) ∧
    ((cacheLookup 10 cr1.query_hash [cr1]).1 = none ∧
      cr1 ∈ (cacheLookup 10 cr1.query_hash [cr1]).2 ∧
      cr2 ∈ cacheStore cr2 [cr1] ∧
      cr1 ∉ cacheStore cr2 [cr1] ∧
      countHash cr1.query_hash (cacheStore cr2 [cr1]) = 1) :=
  ⟨⟨by decide, by decide, by decide, by decide, by decide⟩,
   c7_expired_lookup_is_miss [cr1] cr1 cr2 10 (by decide) (by decide) (by decide)
     (by decide) (by decide)⟩

/-- C8: once a `claude_api_key` has been set, the client-visible output of
`GET /api/admin/config` is independent of the stored value — any two
nonempty keys produce the identical masked presence response, and the
dashboard renders it as the fixed mask string, never the key. -/
theorem c8_api_key_never_plaintext :
    ∀ v1 v2 : String, v1 ≠ "" → v2 ≠ "" →
      configGet v1 = configGet v2 ∧
      displayedApiKey (configGet v1).claude_api_key_present
        = displayedApiKey (configGet v2).claude_api_key_present ∧
      displayedApiKey (configGet v1).claude_api_key_present
        = "••••••••••••••••" := by
  intro v1 v2 h1 h2
  have e1 : (v1 != "") = true := bne_iff_ne.mpr h1
  have e2 : (v2 != "") = true := bne_iff_ne.mpr h2
  simp [configGet, displayedApiKey, e1, e2]

/-- Witness for C8 on two distinct concrete keys. -/
theorem c8_api_key_never_plaintext_witness :
    ("sk-ant-a" ≠ "" ∧ "sk-ant-b" ≠ "") ∧
    (configGet "sk-ant-a" = configGet "sk-ant-b" ∧
      displayedApiKey (configGet "sk-ant-a").claude_api_key_present
        = displayedApiKey (configGet "sk-ant-b").claude_api_key_present ∧
      displayedApiKey (configGet "sk-ant-a").claude_api_key_present
        = "••••••••••••••••") :=
  ⟨⟨by decide, by decide⟩,
   c8_api_key_never_plaintext "sk-ant-a" "sk-ant-b" (by decide) (by decide)⟩

/-- C9 counterexample: with one log row (id 1) and one feedback row
referencing it, purging the log row does not leave the feedback table
unchanged — the `ON DELETE CASCADE` clause deletes the referencing
feedback row with it, so the claim that every `FeedbackEntry` row is left
unchanged fails. -/
theorem c9_counterexample :
    (purgeQueryLog 1 [qe1] [fbA]).2 ≠ [fbA] := by decide

/-- C9 (amended): purging a `query_logs` row cascade-deletes exactly the
feedback rows referencing it — every surviving feedback row was already
present and does not reference the purged id, every feedback row not
referencing the purged id survives, and referential integrity is
preserved, so `query_id` never dangles. -/
theorem c9_cascade_delete :
    ∀ (qid : Nat) (logs : List QueryLogEntry) (fb : List FeedbackRow),
      feedbackRefsIntact fb logs →
      (∀ f ∈ (purgeQueryLog qid logs fb).2, f ∈ fb ∧ f.query_id ≠ some qid) ∧
      (∀ f ∈ fb, f.query_id ≠ some qid → f ∈ (purgeQueryLog qid logs fb).2) ∧
      feedbackRefsIntact (purgeQueryLog qid logs fb).2 (purgeQueryLog qid logs fb).1 := by
  intro qid logs fb hint
  refine ⟨?_, ?_, ?_⟩
  · intro f hf
    have hq := List.of_mem_filter hf
    simp only [decide_eq_true_eq] at hq
    exact ⟨List.mem_of_mem_filter hf, hq⟩
  · intro f hf hq
    exact List.mem_filter.mpr ⟨hf, by simp [hq]⟩
  · intro f hf
    have hq := List.of_mem_filter hf
    simp only [decide_eq_true_eq] at hq
    rcases hint f (List.mem_of_mem_filter hf) with h | ⟨l, hl, he⟩
    · exact Or.inl h
    · refine Or.inr ⟨l, List.mem_filter.mpr ⟨hl, ?_⟩, he⟩
      simp only [decide_eq_true_eq]
      intro hlid
      exact hq (by rw [he, hlid])

/-- Witness for C9 (amended) on a two-log, two-feedback table, purging
log row 1. -/
theorem c9_cascade_delete_witness :
    feedbackRefsIntact [fbA, fbB] [qe1, qe2] ∧
    ((∀ f ∈ (purgeQueryLog 1 [qe1, qe2] [fbA, fbB]).2,
        f ∈ [fbA, fbB] ∧ f.query_id ≠ some 1) ∧
      (∀ f ∈ [fbA, fbB], f.query_id ≠ some 1 →
        f ∈ (purgeQueryLog 1 [qe1, qe2] [fbA, fbB]).2) ∧
      feedbackRefsIntact (purgeQueryLog 1 [qe1, qe2] [fbA, fbB]).2
        (purgeQueryLog 1 [qe1, qe2] [fbA, fbB]).1) :=
  ⟨by decide, c9_cascade_delete 1 [qe1, qe2] [fbA, fbB] (by decide)⟩

/-- C10 counterexample: on the text `"##\nT\nB"` the code renders the one
non-blank segment with title `"T"` (the segment is trimmed before being
split into lines), while the claim's reading — title is the untrimmed
segment's first line trimmed — predicts the empty title, so the claim as
stated fails. -/
theorem c10_counterexample :
    formatResponse (some "##\nT\nB".toList)
      = [⟨"T".toList, "B".toList⟩] ∧
    formatResponseClaim (some "##\nT\nB".toList)
      = [⟨"".toList, "T\nB".toList⟩] ∧
    formatResponse (some "##\nT\nB".toList)
      ≠ formatResponseClaim (some "##\nT\nB".toList) :=
  ⟨by decide, by decide, by decide⟩

/-- C10 (amended): a null or empty text yields no sections; otherwise the
text is split on `'##'`, whitespace-only segments are dropped, and each
remaining segment is first trimmed and then rendered as one section whose
title is the trimmed segment's first line (trimmed) and whose content is
the trimmed segment's remaining lines joined by newlines and trimmed; so a
text with no `'##'` and non-blank content yields exactly one section
titled by the first line of the trimmed text. -/
theorem c10_format_response :
    (formatResponse none = [] ∧ formatResponse (some []) = []) ∧
    (∀ t : JSStr, t ≠ [] →
      formatResponse (some t) = (splitSections t).map sectionOfSegment) ∧
    (∀ t : JSStr, splitOnHH t = [t] → trimStr t ≠ [] →
      formatResponse (some t) = [sectionOfSegment t]) := by
  refine ⟨⟨rfl, rfl⟩, ?_, ?_⟩
  · intro t ht
    show (if t = [] then [] else (splitSections t).map formatSection)
      = (splitSections t).map sectionOfSegment
    rw [if_neg ht]
    rfl
  · intro t hsplit htrim
    have ht : t ≠ [] := by
      intro h
      subst h
      exact htrim rfl
    have hsec : splitSections t = [t] := by
      unfold splitSections
      rw [hsplit]
      simp [List.filter_cons, htrim]
    show (if t = [] then [] else (splitSections t).map formatSection)
      = [sectionOfSegment t]
    rw [if_neg ht, hsec]
    rfl

/-- Witness for C10 (amended) on a concrete single-section text. -/
theorem c10_format_response_witness :
    (splitOnHH "Root Cause\nfix the rate table".toList
        = ["Root Cause\nfix the rate table".toList]
      ∧ trimStr "Root Cause\nfix the rate table".toList ≠ []) ∧
    formatResponse (some "Root Cause\nfix the rate table".toList)
      = [sectionOfSegment "Root Cause\nfix the rate table".toList] :=
  ⟨⟨by decide, by decide⟩,
   c10_format_response.2.2 "Root Cause\nfix the rate table".toList
     (by decide) (by decide)⟩

end Stratus
